import Mathlib

/-!
# Verification of the Midterm-Calculator undo/redo state-management core

Shallow embedding of the calculator's history ledger (`src/history.py`),
snapshot stack (`src/app/calculator_momento.py`) and engine orchestration
(`src/app/calculator.py`), together with proofs and refutations of the
specification's claims about them.

Modelling conventions:
* Python floats are modelled by `ℚ`; the claims under scrutiny are about
  state management, not floating-point rounding, and every concrete value
  they mention (`10`, `0`, `8`, ...) is exactly representable.
* Timestamps (`datetime`) are modelled by a `Nat` tick passed explicitly
  where the source calls `datetime.now()`.
* The global `config` object is modelled by explicit parameters
  (`cap` for `max_history_size`, `prec` for `precision`).
* Exceptions are modelled by explicit result values.  Where the source can
  raise in the middle of a sequence of in-place mutations, the embedding
  returns the post-exception state together with an optional error, so that
  partial mutation is observable exactly as in Python.
* Observers (`LoggingObserver`, `AutoSaveObserver`) only log / write files;
  they never touch the in-memory ledger or snapshot stack, so they do not
  appear in the state model.
-/

/-- One calculation record (`src/calculation.py`, class `Calculation`). -/
structure Calculation where
  operation : String
  operand1 : ℚ
  operand2 : ℚ
  result : ℚ
  timestamp : Nat
deriving DecidableEq, Repr

/-- Error kinds of `src/exceptions.py` that the embedded code can raise.
`DivisionByZeroError` subclasses `OperationError` in the source, so both
constructors are operation-kind errors. -/
inductive CalcError where
  | operationError (msg : String)
  | divisionByZeroError (msg : String)
deriving DecidableEq, Repr

/-- Errors raised on the history-load path (`FileOperationError` wrapping a
row-conversion failure in `Calculation.from_dict`). -/
inductive LoadError where
  | fileOperationError (msg : String)
deriving DecidableEq, Repr

/-- Equality of embedded fallible results is decidable, so that concrete
runs can be checked by evaluation. -/
instance {ε α : Type} [DecidableEq ε] [DecidableEq α] :
    DecidableEq (Except ε α) := fun x y =>
  match x, y with
  | .ok a, .ok b => decidable_of_iff (a = b) (by simp)
  | .ok _, .error _ => isFalse (by simp)
  | .error _, .ok _ => isFalse (by simp)
  | .error e, .error f => decidable_of_iff (e = f) (by simp)

/-- Python slice `l[:k]` for an arbitrary integer bound `k`. -/
def pySliceTo (k : ℤ) (l : List α) : List α :=
  if 0 ≤ k then l.take k.toNat else l.take (l.length - (-k).toNat)

/-- Python slice `l[k:]` for an arbitrary integer bound `k`. -/
def pySliceFrom (k : ℤ) (l : List α) : List α :=
  if 0 ≤ k then l.drop k.toNat else l.drop (l.length - (-k).toNat)

/-! ## BoundedHistoryLedger: `HistoryManager` (`src/history.py`)

The manager's only in-memory state is `self._history : List[Calculation]`,
so its operations are embedded as functions on `List Calculation` (and,
where Python's dynamic typing admits any value, on `List α`). -/

/-- `HistoryManager.add_calculation`, verbatim over an arbitrary element
type: Python performs no validation of the argument, so any value —
including `None` — is appended; then, if the length exceeds
`config.max_history_size`, the single front element is popped. -/
def addCalculationAny (cap : Nat) (h : List α) (c : α) : List α :=
  let h' := h ++ [c]
  if h'.length > cap then h'.drop 1 else h'

/-- `HistoryManager.add_calculation` at the intended element type. -/
def add_calculation (cap : Nat) (h : List Calculation) (c : Calculation) :
    List Calculation :=
  addCalculationAny cap h c

/-- `HistoryManager.get_recent`: `self._history[-count:] if self._history
else []`.  The count is a Python `int`, hence `ℤ` here. -/
def get_recent (count : ℤ) (h : List Calculation) : List Calculation :=
  if h = [] then [] else pySliceFrom (-count) h

/-- One raw CSV row as handed to `Calculation.from_dict`.  A field is `none`
when the column is missing (`KeyError`) or its text fails numeric /
timestamp parsing (`ValueError`); either way `from_dict` raises. -/
structure RawRow where
  operation : Option String
  operand1 : Option ℚ
  operand2 : Option ℚ
  result : Option ℚ
  timestamp : Option Nat
deriving DecidableEq, Repr

/-- `Calculation.from_dict` (`src/calculation.py`): succeeds exactly when
every field is present and parses. -/
def Calculation.from_dict (d : RawRow) : Except LoadError Calculation :=
  match d.operation, d.operand1, d.operand2, d.result, d.timestamp with
  | some op, some a, some b, some r, some t =>
      .ok { operation := op, operand1 := a, operand2 := b, result := r,
            timestamp := t }
  | _, _, _, _, _ => .error (.fileOperationError "Failed to load history")

/-- The readable states of the history file for `load_from_csv`:
the file may be absent, empty (pandas raises `EmptyDataError`, which the
source catches and ignores), or parse into a list of raw rows. -/
inductive CsvFile where
  | missing
  | empty
  | parsed (rows : List RawRow)

/-- The row-appending loop of `HistoryManager.load_from_csv`: starting from
the already-cleared history, convert rows one at a time, appending each
success; the first failing row aborts the loop, leaving the appends made so
far in place (the exception propagates as `FileOperationError`). -/
def loadRows : List RawRow → List Calculation →
    List Calculation × Option LoadError
  | [], acc => (acc, none)
  | r :: rs, acc =>
      match Calculation.from_dict r with
      | .ok c => loadRows rs (acc ++ [c])
      | .error e => (acc, some e)

/-- `HistoryManager.load_from_csv`: returns the post-call history together
with the raised error, if any.  A missing file logs a warning and returns
with the history untouched; an empty file raises `EmptyDataError` inside
`pd.read_csv` — before the `clear()` — which the source catches, so the
history is also untouched; otherwise the history is cleared and the rows
are appended one by one. -/
def load_from_csv (file : CsvFile) (h : List Calculation) :
    List Calculation × Option LoadError :=
  match file with
  | .missing => (h, none)
  | .empty => (h, none)
  | .parsed rows => loadRows rows []

/-- `CalculatorConfig.validate` (`src/app/calculator_config.py`): the three
checks, in source order. -/
def CalculatorConfig.validate (maxHistorySize precision : ℤ)
    (maxInputValue : ℚ) : Except String Unit :=
  if maxHistorySize < 1 then
    .error "CALCULATOR_MAX_HISTORY_SIZE must be at least 1"
  else if precision < 0 then
    .error "CALCULATOR_PRECISION must be non-negative"
  else if maxInputValue ≤ 0 then
    .error "CALCULATOR_MAX_INPUT_VALUE must be positive"
  else .ok ()

/-! ## SnapshotStack: `MementoCaretaker` (`src/app/calculator_momento.py`)

A `CalculatorMemento` stores a defensive copy of a history list and exposes
a copy of it, so it is embedded as the `List Calculation` it stores. -/

/-- `MementoCaretaker` state: `_mementos` and `_current_index` (a Python
`int`, `-1` on construction, hence `ℤ`). -/
structure MementoCaretaker where
  mementos : List (List Calculation)
  currentIndex : ℤ
deriving DecidableEq, Repr

/-- The freshly constructed caretaker. -/
def MementoCaretaker.new : MementoCaretaker :=
  { mementos := [], currentIndex := -1 }

/-- `MementoCaretaker.save`: truncate `_mementos` to
`[:_current_index + 1]`, append the new memento, and point the index at the
new last element. -/
def MementoCaretaker.save (ct : MementoCaretaker) (m : List Calculation) :
    MementoCaretaker :=
  let ms := pySliceTo (ct.currentIndex + 1) ct.mementos ++ [m]
  { mementos := ms, currentIndex := (ms.length : ℤ) - 1 }

/-- `MementoCaretaker.undo`: when `_current_index > 0`, decrement it and
return the memento now at the index; otherwise return `None` and leave the
state alone.  (`get?` is `none` only when the decremented index is out of
range, which in Python would be an unreachable `IndexError`: reachable
states keep the cursor within `[-1, len-1]`.) -/
def MementoCaretaker.undo (ct : MementoCaretaker) :
    Option (List Calculation) × MementoCaretaker :=
  if 0 < ct.currentIndex then
    (ct.mementos.get? (ct.currentIndex - 1).toNat,
     { ct with currentIndex := ct.currentIndex - 1 })
  else (none, ct)

/-- `MementoCaretaker.redo`: when `_current_index < len(_mementos) - 1`,
increment it and return the memento now at the index; otherwise `None`. -/
def MementoCaretaker.redo (ct : MementoCaretaker) :
    Option (List Calculation) × MementoCaretaker :=
  if ct.currentIndex < (ct.mementos.length : ℤ) - 1 then
    (ct.mementos.get? (ct.currentIndex + 1).toNat,
     { ct with currentIndex := ct.currentIndex + 1 })
  else (none, ct)

/-- `MementoCaretaker.can_undo`. -/
def MementoCaretaker.can_undo (ct : MementoCaretaker) : Bool :=
  decide (0 < ct.currentIndex)

/-- `MementoCaretaker.can_redo`. -/
def MementoCaretaker.can_redo (ct : MementoCaretaker) : Bool :=
  decide (ct.currentIndex < (ct.mementos.length : ℤ) - 1)

/-! ## The arithmetic collaborator (`src/app/operations.py`)

The engine consumes arithmetic through
`OperationFactory.create_operation(name)` followed by
`operation.execute(a, b)` and `operation.get_symbol()`; the composition is
a pure function `String → ℚ → ℚ → Except CalcError (String × ℚ)` returning
the symbol and the raw result.  The engine theorems below are stated for an
arbitrary such collaborator (the spec treats arithmetic as an external
collaborator); `execArith` embeds the factory dispatch for the operations
whose float semantics are exact on the rationals.  `power` and `root`
compute transcendental float functions that have no exact model on `ℚ` and
are not needed by any claim, so `execArith` leaves them out of its domain
(falling through to the factory's unknown-operation error). -/

/-- Python `str.lower()`, character by character. -/
def pyLower (s : String) : String :=
  ⟨s.data.map Char.toLower⟩

/-- `DivideOperation.execute`. -/
def DivideOperation.execute (a b : ℚ) : Except CalcError ℚ :=
  if b = 0 then .error (.divisionByZeroError "Cannot divide by zero")
  else .ok (a / b)

/-- `ModulusOperation.execute`: Python `%` on numbers is
`a - b * floor(a / b)`. -/
def ModulusOperation.execute (a b : ℚ) : Except CalcError ℚ :=
  if b = 0 then
    .error (.divisionByZeroError "Cannot calculate modulus with zero divisor")
  else .ok (a - b * ⌊a / b⌋)

/-- `IntegerDivideOperation.execute`: `float(int(a // b))`, i.e. the floor
of the quotient. -/
def IntegerDivideOperation.execute (a b : ℚ) : Except CalcError ℚ :=
  if b = 0 then .error (.divisionByZeroError "Cannot divide by zero")
  else .ok ((⌊a / b⌋ : ℤ) : ℚ)

/-- `PercentageOperation.execute`. -/
def PercentageOperation.execute (a b : ℚ) : Except CalcError ℚ :=
  if b = 0 then
    .error (.divisionByZeroError "Cannot calculate percentage with zero base")
  else .ok (a / b * 100)

/-- Factory dispatch (`OperationFactory.create_operation` on
`operation_name.lower()`) composed with `execute` and `get_symbol`, for the
exactly-representable operations. -/
def execArith (name : String) (a b : ℚ) : Except CalcError (String × ℚ) :=
  let n := pyLower name
  if n = "add" then .ok ("+", a + b)
  else if n = "subtract" then .ok ("-", a - b)
  else if n = "multiply" then .ok ("*", a * b)
  else if n = "divide" then (DivideOperation.execute a b).map (fun r => ("/", r))
  else if n = "modulus" then
    (ModulusOperation.execute a b).map (fun r => ("%", r))
  else if n = "int_divide" then
    (IntegerDivideOperation.execute a b).map (fun r => ("//", r))
  else if n = "percent" then
    (PercentageOperation.execute a b).map (fun r => ("%%", r))
  else if n = "abs_diff" then .ok ("|a-b|", |a - b|)
  else .error (.operationError ("Unknown operation: " ++ name))

/-- `round(result, config.precision)`: round to `prec` decimal digits
(nearest-integer model of Python's float rounding; exact on the values the
claims touch). -/
def roundTo (prec : Nat) (x : ℚ) : ℚ :=
  ((Rat.floor (x * 10 ^ prec + 1 / 2) : ℤ) : ℚ) / 10 ^ prec

/-! ## CalculationEngine: `Calculator` (`src/app/calculator.py`) -/

/-- `Calculator` state: the owned `HistoryManager`'s list and the owned
`MementoCaretaker`. -/
structure Calculator where
  history : List Calculation
  caretaker : MementoCaretaker
deriving DecidableEq, Repr

/-- `Calculator.__init__`: empty history, then `_save_state()` pushes the
initial memento of the empty history. -/
def Calculator.new : Calculator :=
  { history := [], caretaker := MementoCaretaker.new.save [] }

/-- `Calculator.get_history` (a defensive copy of the list). -/
def Calculator.get_history (c : Calculator) : List Calculation :=
  c.history

/-- `Calculator.can_undo` via the caretaker (`canUndo` of the spec). -/
def Calculator.can_undo (c : Calculator) : Bool :=
  c.caretaker.can_undo

/-- `Calculator.can_redo` via the caretaker (`canRedo` of the spec). -/
def Calculator.can_redo (c : Calculator) : Bool :=
  c.caretaker.can_redo

/-- `Calculator.calculate`: evaluate through the arithmetic collaborator;
on failure the exception propagates before any mutation, so the state in
the error branch is the input state verbatim.  On success: round, build the
record, append it to the history (with eviction), `_save_state()`, notify
observers (stateless here), return the rounded result. -/
def Calculator.calculate (c : Calculator)
    (evalOp : String → ℚ → ℚ → Except CalcError (String × ℚ))
    (prec cap ts : Nat) (name : String) (a b : ℚ) :
    Calculator × Except CalcError ℚ :=
  match evalOp name a b with
  | .error e => (c, .error e)
  | .ok (sym, res) =>
      let r := roundTo prec res
      let record : Calculation :=
        { operation := sym, operand1 := a, operand2 := b, result := r,
          timestamp := ts }
      let h := add_calculation cap c.history record
      ({ history := h, caretaker := c.caretaker.save h }, .ok r)

/-- `Calculator.undo`: `False` and no change when `can_undo` fails;
otherwise restore the memento returned by the caretaker. -/
def Calculator.undo (c : Calculator) : Bool × Calculator :=
  if c.caretaker.can_undo then
    match c.caretaker.undo with
    | (some m, ct) => (true, { history := m, caretaker := ct })
    | (none, ct) => (false, { history := c.history, caretaker := ct })
  else (false, c)

/-- `Calculator.redo`: symmetric to `undo`. -/
def Calculator.redo (c : Calculator) : Bool × Calculator :=
  if c.caretaker.can_redo then
    match c.caretaker.redo with
    | (some m, ct) => (true, { history := m, caretaker := ct })
    | (none, ct) => (false, { history := c.history, caretaker := ct })
  else (false, c)

/-- `Calculator.clear_history`: clear the ledger, then `_save_state()`. -/
def Calculator.clear_history (c : Calculator) : Calculator :=
  { history := [], caretaker := c.caretaker.save [] }

/-- `Calculator.load_history`: `load_from_csv` then `_save_state()` — but
when the load raises, the exception propagates before `_save_state()`, so
no snapshot is pushed and the (partially mutated) history stands. -/
def Calculator.load_history (c : Calculator) (file : CsvFile) :
    Calculator × Option LoadError :=
  match load_from_csv file c.history with
  | (h, some e) => ({ history := h, caretaker := c.caretaker }, some e)
  | (h, none) => ({ history := h, caretaker := c.caretaker.save h }, none)

/-! ## Shared sample data and helper lemmas -/

/-- A sample record used to instantiate witnesses and counterexamples
(`5 + 3 = 8`, as in the spec's Scenario A). -/
def sampleCalc : Calculation :=
  { operation := "+", operand1 := 5, operand2 := 3, result := 8,
    timestamp := 0 }

/-- Everything a `pySliceTo` keeps was already in the list. -/
theorem pySliceTo_subset (k : ℤ) (l : List α) : pySliceTo k l ⊆ l := by
  unfold pySliceTo
  split
  · exact List.take_subset _ _
  · exact List.take_subset _ _

/-- Membership in the post-`save` memento list comes from the old list or
is the newly saved memento. -/
theorem mem_save_cases {ct : MementoCaretaker} {m m' : List Calculation}
    (h : m' ∈ (ct.save m).mementos) : m' ∈ ct.mementos ∨ m' = m := by
  unfold MementoCaretaker.save at h
  rcases List.mem_append.mp h with h' | h'
  · exact Or.inl (pySliceTo_subset _ _ h')
  · exact Or.inr (List.mem_singleton.mp h')

/-- The eviction step never lets the ledger grow past the capacity, as
long as it was within capacity before the append. -/
theorem length_addCalculationAny_le {cap : Nat} {h : List α} (c : α)
    (hl : h.length ≤ cap) : (addCalculationAny cap h c).length ≤ cap := by
  show (if (h ++ [c]).length > cap then (h ++ [c]).drop 1
        else h ++ [c]).length ≤ cap
  split
  · simpa using hl
  · next hgt => simp at hgt ⊢; omega

/-! ## Claim C1: push truncates to the cursor and discards the redo branch -/

/-- C1: for every snapshot-stack state whose cursor satisfies the stack
invariant `-1 ≤ cursor`, `save` (the spec's `push`) sets the memento list
to `snapshots[0..cursor]` followed by the new snapshot and the cursor to
the new last index; in particular, for any stack in which `can_redo` is
true, pushing makes `can_redo` false — every snapshot beyond the cursor is
discarded. -/
theorem save_truncates_and_discards_redo (ct : MementoCaretaker)
    (m : List Calculation) (hinv : -1 ≤ ct.currentIndex)
    (_hr : ct.can_redo = true) :
    (ct.save m).mementos =
      ct.mementos.take (ct.currentIndex + 1).toNat ++ [m] ∧
    (ct.save m).currentIndex = ((ct.save m).mementos.length : ℤ) - 1 ∧
    (ct.save m).can_redo = false := by
  refine ⟨?_, rfl, ?_⟩
  · show pySliceTo (ct.currentIndex + 1) ct.mementos ++ [m] =
      ct.mementos.take (ct.currentIndex + 1).toNat ++ [m]
    unfold pySliceTo
    rw [if_pos (by omega)]
  · show (MementoCaretaker.can_redo _) = false
    unfold MementoCaretaker.can_redo MementoCaretaker.save
    simp

/-- Witness for C1 at a concrete two-snapshot stack with the cursor on the
first snapshot (so redo is possible before the push). -/
theorem save_truncates_and_discards_redo_witness :
    (-1 : ℤ) ≤ (MementoCaretaker.mk [[], [sampleCalc]] 0).currentIndex ∧
    (MementoCaretaker.mk [[], [sampleCalc]] 0).can_redo = true ∧
    ((MementoCaretaker.mk [[], [sampleCalc]] 0).save [sampleCalc]).can_redo
      = false :=
  ⟨by decide, by decide,
    (save_truncates_and_discards_redo (MementoCaretaker.mk [[], [sampleCalc]] 0)
      [sampleCalc] (by decide) (by decide)).2.2⟩

/-! ## Claim C4: a failing arithmetic collaborator leaves the engine untouched -/

/-- C4: whenever the arithmetic collaborator fails on an operand pair, the
engine's `calculate` propagates the error and leaves the whole state — the
ledger and the snapshot stack — exactly as it was: no record is appended,
no snapshot is pushed, and `get_history` / `can_undo` are unchanged. -/
theorem calculate_failure_atomic
    (evalOp : String → ℚ → ℚ → Except CalcError (String × ℚ))
    (prec cap ts : Nat) (name : String) (a b : ℚ) (c : Calculator)
    (e : CalcError) (hfail : evalOp name a b = .error e) :
    c.calculate evalOp prec cap ts name a b = (c, .error e) ∧
    (c.calculate evalOp prec cap ts name a b).1.get_history = c.get_history ∧
    (c.calculate evalOp prec cap ts name a b).1.can_undo = c.can_undo := by
  have hmain : c.calculate evalOp prec cap ts name a b = (c, .error e) := by
    unfold Calculator.calculate
    rw [hfail]
  exact ⟨hmain, by rw [hmain], by rw [hmain]⟩

/-- Witness for C4: `calculate("divide", 10, 0)` on a fresh engine raises
the division-by-zero operation error, and the history stays empty with
`can_undo` still false. -/
theorem calculate_failure_atomic_witness :
    execArith "divide" 10 0 =
      .error (.divisionByZeroError "Cannot divide by zero") ∧
    Calculator.new.calculate execArith 10 100 0 "divide" 10 0 =
      (Calculator.new,
       .error (.divisionByZeroError "Cannot divide by zero")) ∧
    Calculator.new.get_history = [] ∧
    Calculator.new.can_undo = false :=
  ⟨by with_unfolding_all decide,
   (calculate_failure_atomic execArith 10 100 0 "divide" 10 0 Calculator.new
      (.divisionByZeroError "Cannot divide by zero")
      (by with_unfolding_all decide)).1,
   by decide, by decide⟩

/-! ## Claim C6: undo with nothing to undo is a signalled no-op -/

/-- C6: whenever `can_undo` is false, `undo` returns the `False` signal
(distinguishable from a successful undo) and changes nothing: the returned
state is the input state, so `get_history` and the caretaker's memento
list and cursor are all value-identical. -/
theorem undo_nothing_signal_noop (c : Calculator)
    (h : c.can_undo = false) :
    c.undo = (false, c) ∧
    (c.undo).2.get_history = c.get_history ∧
    (c.undo).2.caretaker.mementos = c.caretaker.mementos ∧
    (c.undo).2.caretaker.currentIndex = c.caretaker.currentIndex := by
  have hmain : c.undo = (false, c) := by
    unfold Calculator.undo
    unfold Calculator.can_undo at h
    rw [h]
    simp
  exact ⟨hmain, by rw [hmain], by rw [hmain], by rw [hmain]⟩

/-- Witness for C6 at the freshly constructed engine, where the cursor
sits at the initial snapshot and `can_undo` is false. -/
theorem undo_nothing_signal_noop_witness :
    Calculator.new.can_undo = false ∧
    Calculator.new.undo = (false, Calculator.new) :=
  ⟨by decide, (undo_nothing_signal_noop Calculator.new (by decide)).1⟩

/-! ## Claim C7: degenerate zero capacity -/

/-- C7: a ledger with capacity `0` (necessarily empty, by its own
capacity invariant) tolerates an append without error: the just-added
record is immediately evicted and the ledger ends up empty — even though
`CalculatorConfig.validate` independently rejects
`max_history_size = 0`. -/
theorem zero_capacity_append_empties (c : Calculation)
    (h : List Calculation) (hh : h = []) :
    add_calculation 0 h c = [] ∧
    (CalculatorConfig.validate 0 10 (10 ^ 10)).isOk = false := by
  subst hh
  constructor
  · rfl
  · with_unfolding_all decide

/-- Witness for C7 at the sample record. -/
theorem zero_capacity_append_empties_witness :
    add_calculation 0 [] sampleCalc = [] :=
  (zero_capacity_append_empties sampleCalc [] rfl).1

/-! ## Claim C10: loading from a nonexistent file is a silent no-op -/

/-- C10: `load_from_csv` on a filepath that does not exist returns
normally — no error — and leaves the history exactly unchanged, both at
the `HistoryManager` level and through the engine's `load_history`. -/
theorem load_missing_file_silent_noop (h : List Calculation)
    (ct : MementoCaretaker) :
    load_from_csv .missing h = (h, none) ∧
    ((Calculator.mk h ct).load_history .missing).1.get_history = h ∧
    ((Calculator.mk h ct).load_history .missing).2 = none :=
  ⟨rfl, rfl, rfl⟩

/-! ## Claim C2: undo immediately followed by redo -/

/-- C2 (counterexample): the round-trip law fails on a reachable engine
state.  Perform one calculation, then attempt `load_history` on a file
whose single row is malformed: the load clears the ledger and raises
before `_save_state()`, so the ledger (now empty) disagrees with the
snapshot at the cursor.  `can_undo` is true there, yet `undo()` then
`redo()` yields the pre-load one-record history, not the empty history
`get_history()` returned before the undo. -/
theorem undo_redo_round_trip_counterexample :
    ((((Calculator.new.calculate execArith 0 100 0 "add" 1 1).1.load_history
        (.parsed [RawRow.mk none none none none none])).1.can_undo = true) ∧
     ((((Calculator.new.calculate execArith 0 100 0 "add" 1 1).1.load_history
        (.parsed [RawRow.mk none none none none none])).1.undo).2.redo).2.get_history ≠
      ((Calculator.new.calculate execArith 0 100 0 "add" 1 1).1.load_history
        (.parsed [RawRow.mk none none none none none])).1.get_history) := by
  with_unfolding_all decide

/-- C2 (amended): for every engine state in which `can_undo()` is true,
whose cursor is in range, and whose ledger content equals the snapshot at
the cursor — which holds for every state not produced by a failed
`load_history`, since every other mutation ends with `_save_state()` —
`undo()` immediately followed by `redo()` succeeds and restores the engine
(in particular the ledger, value-equal and order-preserved) to exactly its
state before the undo. -/
theorem undo_redo_round_trip (c : Calculator)
    (h0 : 0 < c.caretaker.currentIndex)
    (hlen : c.caretaker.currentIndex < (c.caretaker.mementos.length : ℤ))
    (hcur : c.caretaker.mementos.get? c.caretaker.currentIndex.toNat
      = some c.history) :
    (c.undo).1 = true ∧ ((c.undo).2.redo).1 = true ∧
    ((c.undo).2.redo).2 = c := by
  obtain ⟨hist, ms, idx⟩ := c
  simp only at h0 hlen hcur
  have h1 : (idx - 1).toNat < ms.length := by omega
  obtain ⟨m₁, hm1⟩ : ∃ m, ms.get? (idx - 1).toNat = some m := by
    rw [List.get?_eq_get h1]; exact ⟨_, rfl⟩
  have hcu : (MementoCaretaker.mk ms idx).can_undo = true := by
    unfold MementoCaretaker.can_undo
    simpa using h0
  have hundo_ct : (MementoCaretaker.mk ms idx).undo
      = (some m₁, MementoCaretaker.mk ms (idx - 1)) := by
    unfold MementoCaretaker.undo
    rw [if_pos h0]
    show (ms.get? (idx - 1).toNat, MementoCaretaker.mk ms (idx - 1)) = _
    rw [hm1]
  have hundo : (Calculator.mk hist (MementoCaretaker.mk ms idx)).undo
      = (true, Calculator.mk m₁ (MementoCaretaker.mk ms (idx - 1))) := by
    unfold Calculator.undo
    rw [hcu, hundo_ct]
    rfl
  have hcr : (MementoCaretaker.mk ms (idx - 1)).can_redo = true := by
    unfold MementoCaretaker.can_redo
    simp only [decide_eq_true_eq]
    omega
  have hredo_ct : (MementoCaretaker.mk ms (idx - 1)).redo
      = (some hist, MementoCaretaker.mk ms idx) := by
    unfold MementoCaretaker.redo
    rw [if_pos (by simp only; omega)]
    show (ms.get? (idx - 1 + 1).toNat, MementoCaretaker.mk ms (idx - 1 + 1)) = _
    have he : idx - 1 + 1 = idx := by omega
    rw [he, hcur]
  have hredo : (Calculator.mk m₁ (MementoCaretaker.mk ms (idx - 1))).redo
      = (true, Calculator.mk hist (MementoCaretaker.mk ms idx)) := by
    unfold Calculator.redo
    rw [hcr, hredo_ct]
    rfl
  rw [hundo]
  exact ⟨rfl, by rw [hredo], by rw [hredo]⟩

/-- Witness for the amended C2 on a concrete two-snapshot engine whose
ledger matches the snapshot at the cursor. -/
theorem undo_redo_round_trip_witness :
    (((Calculator.mk [sampleCalc]
        (MementoCaretaker.mk [[], [sampleCalc]] 1)).undo).1 = true) ∧
    ((((Calculator.mk [sampleCalc]
        (MementoCaretaker.mk [[], [sampleCalc]] 1)).undo).2.redo).1 = true) ∧
    ((((Calculator.mk [sampleCalc]
        (MementoCaretaker.mk [[], [sampleCalc]] 1)).undo).2.redo).2 =
      Calculator.mk [sampleCalc] (MementoCaretaker.mk [[], [sampleCalc]] 1)) :=
  undo_redo_round_trip _ (by decide) (by decide) (by decide)

/-! ## Claim C3: the capacity invariant across all operations -/

/-- The capacity invariant: the live ledger and every stored snapshot are
within the configured capacity. -/
def CapInv (cap : Nat) (c : Calculator) : Prop :=
  c.history.length ≤ cap ∧ ∀ m ∈ c.caretaker.mementos, m.length ≤ cap

instance (cap : Nat) (c : Calculator) : Decidable (CapInv cap c) :=
  inferInstanceAs (Decidable (_ ∧ _))

/-- A caretaker `undo` never changes the memento list. -/
theorem undo_snd_mementos (ct : MementoCaretaker) :
    (ct.undo).2.mementos = ct.mementos := by
  unfold MementoCaretaker.undo
  split <;> rfl

/-- A caretaker `redo` never changes the memento list. -/
theorem redo_snd_mementos (ct : MementoCaretaker) :
    (ct.redo).2.mementos = ct.mementos := by
  unfold MementoCaretaker.redo
  split <;> rfl

/-- A memento handed back by `undo` was stored in the caretaker. -/
theorem undo_fst_mem {ct : MementoCaretaker} {m : List Calculation}
    (h : (ct.undo).1 = some m) : m ∈ ct.mementos := by
  unfold MementoCaretaker.undo at h
  split at h
  · exact List.get?_mem h
  · cases h

/-- A memento handed back by `redo` was stored in the caretaker. -/
theorem redo_fst_mem {ct : MementoCaretaker} {m : List Calculation}
    (h : (ct.redo).1 = some m) : m ∈ ct.mementos := by
  unfold MementoCaretaker.redo at h
  split at h
  · exact List.get?_mem h
  · cases h

/-- C3 (counterexample): the claimed invariant
`len(ledger.getAll()) <= capacity` after every operation fails at
capacity 1: a single `load_history` of a two-row file on a fresh engine
leaves two records in the ledger, because `load_from_csv` appends rows
without enforcing `max_history_size`. -/
theorem capacity_invariant_counterexample :
    ¬ ((Calculator.new.load_history (.parsed
        [RawRow.mk (some "+") (some 1) (some 1) (some 2) (some 0),
         RawRow.mk (some "+") (some 2) (some 2) (some 4)
           (some 0)])).1.get_history.length ≤ 1) := by
  with_unfolding_all decide

/-- C3 (amended): the capacity invariant does hold after every
`calculate`, `undo`, `redo` and `clear_history` call (and at
construction), for any arithmetic collaborator — only `load_history` can
break it, since `load_from_csv` appends loaded rows without enforcing the
capacity. -/
theorem capacity_invariant_outside_load
    (cap prec ts : Nat)
    (evalOp : String → ℚ → ℚ → Except CalcError (String × ℚ))
    (name : String) (a b : ℚ) (c : Calculator)
    (hc : CapInv cap c) :
    CapInv cap Calculator.new ∧
    CapInv cap (c.calculate evalOp prec cap ts name a b).1 ∧
    CapInv cap (c.undo).2 ∧
    CapInv cap (c.redo).2 ∧
    CapInv cap c.clear_history := by
  obtain ⟨hlen, hmem⟩ := hc
  refine ⟨⟨by simp [Calculator.new], ?_⟩, ?_, ?_, ?_, ?_⟩
  · intro m hm
    rcases mem_save_cases hm with h' | h'
    · simp [MementoCaretaker.new, pySliceTo] at h'
    · simp [h']
  · unfold Calculator.calculate
    split
    · exact ⟨hlen, hmem⟩
    · refine ⟨length_addCalculationAny_le _ hlen, ?_⟩
      intro m hm
      rcases mem_save_cases hm with h' | h'
      · exact hmem m h'
      · rw [h']
        exact length_addCalculationAny_le _ hlen
  · unfold Calculator.undo
    split
    · rcases hu : c.caretaker.undo with ⟨mo, ct'⟩
      have hms : ct'.mementos = c.caretaker.mementos := by
        have := undo_snd_mementos c.caretaker
        rw [hu] at this
        exact this
      cases mo with
      | some m =>
          refine ⟨?_, ?_⟩
          · exact hmem m (undo_fst_mem (by rw [hu]))
          · intro m' hm'
            rw [hms] at hm'
            exact hmem m' hm'
      | none =>
          refine ⟨hlen, ?_⟩
          intro m' hm'
          rw [hms] at hm'
          exact hmem m' hm'
    · exact ⟨hlen, hmem⟩
  · unfold Calculator.redo
    split
    · rcases hu : c.caretaker.redo with ⟨mo, ct'⟩
      have hms : ct'.mementos = c.caretaker.mementos := by
        have := redo_snd_mementos c.caretaker
        rw [hu] at this
        exact this
      cases mo with
      | some m =>
          refine ⟨?_, ?_⟩
          · exact hmem m (redo_fst_mem (by rw [hu]))
          · intro m' hm'
            rw [hms] at hm'
            exact hmem m' hm'
      | none =>
          refine ⟨hlen, ?_⟩
          intro m' hm'
          rw [hms] at hm'
          exact hmem m' hm'
    · exact ⟨hlen, hmem⟩
  · refine ⟨by simp [Calculator.clear_history], ?_⟩
    intro m hm
    rcases mem_save_cases hm with h' | h'
    · exact hmem m h'
    · simp [h']

/-- Witness for the amended C3 at capacity 1: one `calculate` on a fresh
engine keeps the ledger within capacity. -/
theorem capacity_invariant_outside_load_witness :
    CapInv 1 ((Calculator.new.calculate execArith 0 1 0 "add" 1 1).1) :=
  (capacity_invariant_outside_load 1 0 0 execArith "add" 1 1 Calculator.new
    (by decide)).2.1

/-! ## Claim C5: load with a malformed row -/

/-- Whether a raw row converts successfully. -/
def rowOk (r : RawRow) : Bool :=
  match Calculation.from_dict r with
  | .ok _ => true
  | .error _ => false

/-- The records obtained from the longest prefix of rows that all convert
successfully. -/
def okRowsPrefixCalcs (rows : List RawRow) : List Calculation :=
  (rows.takeWhile rowOk).filterMap fun r => (Calculation.from_dict r).toOption

/-- The loading loop, on input containing a bad row, reports the error and
ends with the accumulator extended by exactly the conversions of the rows
before the first bad one. -/
theorem loadRows_bad_row (rows : List RawRow) :
    ∀ acc : List Calculation, (∃ r ∈ rows, rowOk r = false) →
      (loadRows rows acc).2.isSome = true ∧
      (loadRows rows acc).1 = acc ++ okRowsPrefixCalcs rows := by
  induction rows with
  | nil =>
      intro acc hbad
      simp at hbad
  | cons r rs ih =>
      intro acc hbad
      cases hfd : Calculation.from_dict r with
      | error e =>
          have hok : rowOk r = false := by
            unfold rowOk
            rw [hfd]
          refine ⟨?_, ?_⟩
          · show ((loadRows (r :: rs) acc).2).isSome = true
            simp only [loadRows]
            rw [hfd]
            rfl
          · show (loadRows (r :: rs) acc).1 = _
            simp only [loadRows]
            unfold okRowsPrefixCalcs
            rw [hfd, List.takeWhile_cons_of_neg (by simp [hok])]
            simp
      | ok cv =>
          have hok : rowOk r = true := by
            unfold rowOk
            rw [hfd]
          have hbad' : ∃ r' ∈ rs, rowOk r' = false := by
            rcases hbad with ⟨r', hr', hbr'⟩
            rcases List.mem_cons.mp hr' with h' | h'
            · rw [h'] at hbr'
              rw [hok] at hbr'
              cases hbr'
            · exact ⟨r', h', hbr'⟩
          have step : loadRows (r :: rs) acc = loadRows rs (acc ++ [cv]) := by
            simp only [loadRows]
            rw [hfd]
          have hpre : okRowsPrefixCalcs (r :: rs)
              = cv :: okRowsPrefixCalcs rs := by
            unfold okRowsPrefixCalcs
            rw [List.takeWhile_cons_of_pos (by simp [hok])]
            simp [hfd, Except.toOption]
          rcases ih (acc ++ [cv]) hbad' with ⟨h2, h1⟩
          rw [step, hpre]
          refine ⟨h2, ?_⟩
          rw [h1]
          simp

/-- C5 (counterexample): loading a file whose row is malformed raises, but
the ledger does NOT keep its previous records: a one-record history is
wiped by the failed load, because `load_from_csv` clears the history
before converting rows. -/
theorem load_malformed_counterexample :
    ((load_from_csv (.parsed [RawRow.mk none none none none none])
        [sampleCalc]).2.isSome = true) ∧
    (load_from_csv (.parsed [RawRow.mk none none none none none])
        [sampleCalc]).1 ≠ [sampleCalc] := by
  with_unfolding_all decide

/-- C5 (amended): on any row sequence containing a malformed row,
`load_from_csv` does raise a `FileOperationError`, but the load is not
all-or-nothing: the history ends as the conversions of the rows preceding
the first malformed one (the prior contents are lost), regardless of what
the ledger held before. -/
theorem load_malformed_partial_mutation (rows : List RawRow)
    (h : List Calculation) (hbad : ∃ r ∈ rows, rowOk r = false) :
    (load_from_csv (.parsed rows) h).2.isSome = true ∧
    (load_from_csv (.parsed rows) h).1 = okRowsPrefixCalcs rows := by
  have := loadRows_bad_row rows [] hbad
  simpa [load_from_csv] using this

/-- Witness for the amended C5: a good row followed by a malformed one
leaves exactly the good row's record. -/
theorem load_malformed_partial_mutation_witness :
    ((load_from_csv (.parsed
        [RawRow.mk (some "+") (some 1) (some 1) (some 2) (some 0),
         RawRow.mk none none none none none]) [sampleCalc]).2.isSome
      = true) ∧
    (load_from_csv (.parsed
        [RawRow.mk (some "+") (some 1) (some 1) (some 2) (some 0),
         RawRow.mk none none none none none]) [sampleCalc]).1 =
      okRowsPrefixCalcs
        [RawRow.mk (some "+") (some 1) (some 1) (some 2) (some 0),
         RawRow.mk none none none none none] :=
  load_malformed_partial_mutation _ [sampleCalc] (by decide)

/-! ## Claim C8: `get_recent` -/

/-- C8 (counterexample): the claimed policy "`n <= 0` yields an empty
sequence" fails: `get_recent 0` on a one-record ledger returns the whole
ledger, because the slice `history[-0:]` is `history[0:]`. -/
theorem get_recent_zero_counterexample :
    get_recent 0 [sampleCalc] = [sampleCalc] ∧
    [sampleCalc] ≠ ([] : List Calculation) := by
  decide

/-- C8 (amended): for `n > 0`, `get_recent n` returns the last
`min n (size)` entries in chronological order (the entire ledger, without
error, when `n` exceeds the size); but for `n <= 0` on a nonempty ledger
it does not return an empty sequence: it drops the first `|n|` entries and
returns the rest — in particular `get_recent 0` returns the entire
ledger. -/
theorem get_recent_behaviour (n : ℤ) (h : List Calculation) :
    (0 < n → (get_recent n h) <:+ h ∧
      (get_recent n h).length = min n.toNat h.length) ∧
    (n ≤ 0 → get_recent n h = h.drop (-n).toNat) := by
  constructor
  · intro hn
    unfold get_recent
    by_cases hh : h = []
    · subst hh
      simp
    · rw [if_neg hh]
      unfold pySliceFrom
      rw [if_neg (by omega), neg_neg]
      refine ⟨List.drop_suffix _ _, ?_⟩
      rw [List.length_drop]
      omega
  · intro hn
    unfold get_recent
    by_cases hh : h = []
    · subst hh
      simp
    · rw [if_neg hh]
      unfold pySliceFrom
      rw [if_pos (by omega)]

/-- Witness for the amended C8: `n = 2` on a one-record ledger returns the
whole ledger; `n = -1` drops the first record. -/
theorem get_recent_behaviour_witness :
    ((get_recent 2 [sampleCalc]) <:+ [sampleCalc] ∧
      (get_recent 2 [sampleCalc]).length =
        min (2 : ℤ).toNat [sampleCalc].length) ∧
    get_recent (-1) [sampleCalc] = [sampleCalc].drop (-(-1) : ℤ).toNat :=
  ⟨(get_recent_behaviour 2 [sampleCalc]).1 (by decide),
   (get_recent_behaviour (-1) [sampleCalc]).2 (by decide)⟩

/-! ## Claim C9: appending a null record -/

/-- C9 (counterexample): `add_calculation` has no guard clause: appending
Python's `None` (modelled by `none` at the dynamically-typed element type)
does not fail fast — the null entry is silently admitted into the
ledger. -/
theorem append_none_counterexample :
    addCalculationAny 100 ([] : List (Option Calculation)) none = [none] ∧
    ([none] : List (Option Calculation)) ≠ [] := by
  decide

/-- C9 (amended): `add_calculation` performs no null check: a null record
is appended exactly like any other value (and counts toward the
capacity); under capacity it simply lands at the end of the ledger. -/
theorem append_none_admitted (cap : Nat) (h : List (Option Calculation))
    (hlt : h.length < cap) :
    addCalculationAny cap h none = h ++ [none] := by
  simp only [addCalculationAny]
  rw [if_neg (by simp; omega)]

/-- Witness for the amended C9 on an empty ledger of capacity 100. -/
theorem append_none_admitted_witness :
    addCalculationAny 100 ([] : List (Option Calculation)) none
      = [] ++ [none] :=
  append_none_admitted 100 [] (by decide)
